import Mathlib

/-
Verification of the Super Chat client (frontend/src/hooks/useChat.ts,
frontend/src/lib/api.ts, frontend/src/components/ChatWindow.tsx) against its
natural-language specification.

The TypeScript client is shallowly embedded: React state becomes an explicit
record threaded through each operation, network calls become entries of an
explicit effect trace plus parameters carrying the values the server returned,
and the async SSE generators become pure functions from the list of received
text chunks to the list of yielded events.  JSON.parse is a platform builtin;
it is abstracted as a parameter of type String → Option ChatEvent (none models
a parse exception, which the source catches and skips).
-/

/-- Message role, from the TypeScript union "human" | "ai". -/
inductive Role
  | human
  | ai
deriving DecidableEq, Repr

/-- Wire form of a role, as it appears in checkpoint records. -/
def Role.toWire : Role → String
  | .human => "human"
  | .ai => "ai"

/-- MessageAttachment from api.ts. -/
structure MessageAttachment where
  filename : String
  size : Nat
  s3_key : Option String
  content_type : Option String
deriving DecidableEq, Repr

/-- Thread record from api.ts. -/
structure Thread where
  id : String
  user_id : String
  title : Option String
  created_at : Option String
  updated_at : Option String
deriving DecidableEq, Repr

/-- Durable Message row from api.ts (the Message table as the client sees it). -/
structure Message where
  id : Int
  thread_id : String
  user_id : Option String
  role : Role
  content : String
  message_id : Option String
  attachments : List MessageAttachment
  created_at : Option String
deriving DecidableEq, Repr

/-- CheckpointMessage from api.ts: a role/content pair recorded in a checkpoint. -/
structure CheckpointMessage where
  role : String
  content : String
deriving DecidableEq, Repr

/-- Checkpoint record from api.ts. -/
structure Checkpoint where
  checkpoint_id : String
  thread_id : String
  checkpoint_ns : String
  parent_checkpoint_id : Option String
  created_at : Option String
  step : Int
  messages : List CheckpointMessage
deriving DecidableEq, Repr

/-- Content of a streamed event: absent, a plain string, or a string-keyed
object (the shape the progress events carry).  Embeds the dynamic
string | Record field of ChatEvent in api.ts. -/
inductive EventContent
  | absent
  | str (s : String)
  | obj (fields : List (String × String))
deriving DecidableEq, Repr

/-- ChatEvent from api.ts. -/
structure ChatEvent where
  type : String
  content : EventContent
deriving DecidableEq, Repr

/-- An event whose type makes the stream readers return: "done" or "error". -/
def ChatEvent.isTerminal (e : ChatEvent) : Bool :=
  e.type == "done" || e.type == "error"

/-- ChatMessage from useChat.ts: one display message. The optional isStreaming
flag is embedded as a Bool (absent = false). -/
structure ChatMessage where
  id : String
  role : Role
  content : String
  attachments : List MessageAttachment
  isStreaming : Bool
deriving DecidableEq, Repr

/-- The useChat hook state: every useState cell of useChat.ts. -/
structure ClientState where
  messages : List ChatMessage
  isLoading : Bool
  threads : List Thread
  currentThreadId : Option String
  progressStatus : Option String
  checkpoints : List Checkpoint
  selectedCheckpoint : Option Checkpoint
  isHistoryLoading : Bool
  showTimeline : Bool
deriving DecidableEq, Repr

/-- Network requests the client issues, recorded as an explicit trace. -/
inductive Effect
  | truncateReq (threadId : String) (keepCount : Nat)
  | historyReq (threadId : String)
  | chatReq (message : String) (threadId : String) (userId : String)
      (attachments : List MessageAttachment)
  | forkReq (message : String) (threadId : String) (userId : String)
      (checkpointId : String) (attachments : List MessageAttachment)
  | refreshThreadsReq
  | messagesReq (threadId : String)
  | createThreadReq (userId : String)
  | deleteThreadReq (threadId : String)
deriving DecidableEq, Repr

/-- How the consumption of one event stream ends: the generator finished
normally after yielding these events, or it threw an exception after yielding
them (landing the caller in its catch block). -/
inductive StreamOutcome
  | completed (events : List ChatEvent)
  | threw (events : List ChatEvent)
deriving DecidableEq, Repr

/-- JavaScript character-class test used by String.prototype.trim on the
whitespace this client can encounter. -/
def jsIsSpace (c : Char) : Bool :=
  c = ' ' || c = '\n' || c = '\t' || c = '\r'

/-- JavaScript String.prototype.trim on a character list. -/
def jsTrim (cs : List Char) : List Char :=
  ((cs.dropWhile jsIsSpace).reverse.dropWhile jsIsSpace).reverse

/-- JavaScript content.trim() on a Lean String. -/
def strTrim (s : String) : String :=
  String.mk (jsTrim s.data)

/-- JavaScript s.split with two-newline separator, scanning left to right
without overlap: embeds buffer.split of the SSE readers. -/
def splitNN : List Char → List (List Char)
  | [] => [[]]
  | '\n' :: '\n' :: rest => [] :: splitNN rest
  | c :: rest =>
    match splitNN rest with
    | [] => [[c]]
    | r :: rs => (c :: r) :: rs

/-- JavaScript s.split with single-newline separator: embeds trimmed.split of
the SSE readers. -/
def splitN : List Char → List (List Char)
  | [] => [[]]
  | '\n' :: rest => [] :: splitN rest
  | c :: rest =>
    match splitN rest with
    | [] => [[c]]
    | r :: rs => (c :: r) :: rs

/-- The characters of the SSE line marker "data: " (length 6, matching the
slice(6) in the source). -/
def dataPrefixChars : List Char := ['d', 'a', 't', 'a', ':', ' ']

/-- The per-line loop of streamChat / streamFork over the lines of one complete
frame: lines starting with "data: " have their payload parsed; a parse failure
is caught and skipped; yielding a done/error event makes the generator return
(second component true). -/
def processLines (parse : String → Option ChatEvent) :
    List (List Char) → List ChatEvent × Bool
  | [] => ([], false)
  | l :: ls =>
    if dataPrefixChars.isPrefixOf l then
      match parse (String.mk (l.drop 6)) with
      | some e =>
        if e.isTerminal then ([e], true)
        else
          let r := processLines parse ls
          (e :: r.1, r.2)
      | none => processLines parse ls
    else processLines parse ls

/-- The per-frame loop of streamChat / streamFork over the complete frames cut
from the buffer: frames that trim to nothing are skipped, and a terminal event
stops everything. -/
def processFrames (parse : String → Option ChatEvent) :
    List (List Char) → List ChatEvent × Bool
  | [] => ([], false)
  | f :: fs =>
    let t := jsTrim f
    if t.isEmpty then processFrames parse fs
    else
      let r := processLines parse (splitN t)
      if r.2 then (r.1, true)
      else
        let r2 := processFrames parse fs
        (r.1 ++ r2.1, r2.2)

/-- The reader-done branch of streamChat / streamFork: the remaining buffer is
treated as a single record, parsed only when its trimmed whole starts with
"data: ". -/
def finishBuffer (parse : String → Option ChatEvent) (buffer : List Char) :
    List ChatEvent :=
  let t := jsTrim buffer
  if t.isEmpty then []
  else if dataPrefixChars.isPrefixOf t then
    match parse (String.mk (t.drop 6)) with
    | some e => [e]
    | none => []
  else []

/-- The chunk loop of streamChat / streamFork: decoded chunks accumulate in a
buffer, complete frames (separated by a blank line) are processed as they
arrive, and a terminal event ends the generator, skipping both the remaining
chunks and the final-buffer step. -/
def runChunks (parse : String → Option ChatEvent) (buffer : List Char) :
    List String → List ChatEvent
  | [] => finishBuffer parse buffer
  | c :: cs =>
    let parts := splitNN (buffer ++ c.toList)
    let r := processFrames parse parts.dropLast
    if r.2 then r.1
    else r.1 ++ runChunks parse (parts.getLastD []) cs

/-- The event sequence streamChat yields once its HTTP response body delivers
the given text chunks. -/
def streamChatEvents (parse : String → Option ChatEvent)
    (chunks : List String) : List ChatEvent :=
  runChunks parse [] chunks

/-- The event sequence streamFork yields; the source duplicates the streamChat
reader loop verbatim, so the embedding is the same chunk loop. -/
def streamForkEvents (parse : String → Option ChatEvent)
    (chunks : List String) : List ChatEvent :=
  runChunks parse [] chunks

/-- The events contributed by a list of lines: every "data: " line contributes
its parsed event in order, other lines contribute nothing. -/
def lineEvents (parse : String → Option ChatEvent) (ls : List (List Char)) :
    List ChatEvent :=
  ls.filterMap
    (fun l => if dataPrefixChars.isPrefixOf l then parse (String.mk (l.drop 6)) else none)

/-- The data-line events of one frame, written the way the C8 spec sentence
describes the per-frame parse. -/
def frameLineEvents (parse : String → Option ChatEvent) (frame : List Char) :
    List ChatEvent :=
  lineEvents parse (splitN (jsTrim frame))

/-- No event of the list is a done/error event. -/
def noTerminal (l : List ChatEvent) : Prop :=
  ∀ e ∈ l, e.isTerminal = false

/-- Only the last position of the list may hold a done/error event. -/
def terminalOnlyLast (l : List ChatEvent) : Prop :=
  ∀ i e, l[i]? = some e → i + 1 < l.length → e.isTerminal = false

/-- Modelled from the spec: the parser behaviour claimed by C8 as stated -
split the body into frames at blank lines and yield the parsed event of every
"data: " line of every frame, in order. -/
def claimedStreamParse (parse : String → Option ChatEvent) (body : String) :
    List ChatEvent :=
  ((splitNN body.data).map (frameLineEvents parse)).flatten

/-- Keep events up to and including the first terminal one. -/
def takeThroughTerminal : List ChatEvent → List ChatEvent
  | [] => []
  | e :: es => if e.isTerminal then [e] else e :: takeThroughTerminal es

/-- Whether some event of the list is terminal. -/
def anyTerminal (l : List ChatEvent) : Bool :=
  l.any ChatEvent.isTerminal

/-- Modelled from the amended C8 description: the text after the last
blank-line separator is treated as one record, parsed only when its trimmed
whole starts with "data: ". -/
def specTrailing (parse : String → Option ChatEvent) (rest : List Char) :
    List ChatEvent :=
  if dataPrefixChars.isPrefixOf (jsTrim rest) then
    (parse (String.mk ((jsTrim rest).drop 6))).toList
  else []

/-- Modelled from the amended C8 description: split the body into frames at
blank lines; the events of the complete frames are yielded in line order up to
and including the first done/error event; if no terminal event occurred, the
trailing text is parsed as a single record. -/
def specStreamParse (parse : String → Option ChatEvent) (body : String) :
    List ChatEvent :=
  let parts := splitNN body.data
  let frameEvents := (parts.dropLast.map (frameLineEvents parse)).flatten
  if anyTerminal frameEvents then takeThroughTerminal frameEvents
  else frameEvents ++ specTrailing parse (parts.getLastD [])

/-- The "typeof event.content === string ? event.content : ..." coercion with
empty-string fallback (token and message handlers). -/
def contentStr (c : EventContent) : String :=
  match c with
  | .str s => s
  | _ => ""

/-- The same coercion with the "Something went wrong" fallback (error
handlers). -/
def errorContentStr (c : EventContent) : String :=
  match c with
  | .str s => s
  | _ => "Something went wrong"

/-- First value bound to a key in a string-keyed object. -/
def lookupField (fields : List (String × String)) (k : String) : Option String :=
  (fields.find? (fun kv => kv.1 == k)).map (fun kv => kv.2)

/-- Executable stand-in for the JSON.stringify platform builtin as applied to
an event content value.  Only the progress status text depends on it and no
claim constrains that text. -/
def jsonStringify (c : EventContent) : String :=
  match c with
  | .absent => "undefined"
  | .str s => "\x22" ++ s ++ "\x22"
  | .obj fields =>
    "\x7b" ++
      String.intercalate ","
        (fields.map (fun kv => "\x22" ++ kv.1 ++ "\x22:\x22" ++ kv.2 ++ "\x22")) ++
      "\x7d"

/-- The progress handler expression
progressData?.Progress || JSON.stringify(progressData): an undefined content
stringifies to undefined (status cleared), a present Progress value wins unless
it is the empty string (falsy), otherwise the whole content is stringified. -/
def progressResult (c : EventContent) : Option String :=
  match c with
  | .absent => none
  | .str s => some (jsonStringify (.str s))
  | .obj fields =>
    match lookupField fields "Progress" with
    | some v => if v = "" then some (jsonStringify (.obj fields)) else some v
    | none => some (jsonStringify (.obj fields))

/-- prev.map(msg => msg.id === aiMessageId ? f(msg) : msg). -/
def updateById (aiMessageId : String) (f : ChatMessage → ChatMessage)
    (msgs : List ChatMessage) : List ChatMessage :=
  msgs.map (fun m => if m.id = aiMessageId then f m else m)

/-- One iteration of the sendMessage event loop (useChat.ts, sendMessage):
progress, token, message, done and error events each update the state; other
types fall through. -/
def sendEventStep (aiMessageId : String) (st : ClientState) (ev : ChatEvent) :
    ClientState :=
  if ev.type = "progress" then
    { st with progressStatus := progressResult ev.content }
  else if ev.type = "token" then
    let f := fun (m : ChatMessage) => { m with content := m.content ++ contentStr ev.content }
    { st with messages := updateById aiMessageId f st.messages }
  else if ev.type = "message" then
    let f := fun (m : ChatMessage) => { m with content := contentStr ev.content, isStreaming := false }
    { st with messages := updateById aiMessageId f st.messages }
  else if ev.type = "done" then
    let f := fun (m : ChatMessage) => { m with isStreaming := false }
    { st with progressStatus := none, messages := updateById aiMessageId f st.messages }
  else if ev.type = "error" then
    let f := fun (m : ChatMessage) =>
      { m with content := "Error: " ++ errorContentStr ev.content, isStreaming := false }
    { st with progressStatus := none, messages := updateById aiMessageId f st.messages }
  else st

/-- One iteration of the forkFromCheckpoint event loop (useChat.ts,
forkFromCheckpoint); the editMessage fallback loop duplicates it verbatim.
Unlike sendMessage, it has no case for "message" events. -/
def forkEventStep (aiMessageId : String) (st : ClientState) (ev : ChatEvent) :
    ClientState :=
  if ev.type = "progress" then
    { st with progressStatus := progressResult ev.content }
  else if ev.type = "token" then
    let f := fun (m : ChatMessage) => { m with content := m.content ++ contentStr ev.content }
    { st with messages := updateById aiMessageId f st.messages }
  else if ev.type = "done" then
    let f := fun (m : ChatMessage) => { m with isStreaming := false }
    { st with progressStatus := none, messages := updateById aiMessageId f st.messages }
  else if ev.type = "error" then
    let f := fun (m : ChatMessage) =>
      { m with content := "Error: " ++ errorContentStr ev.content, isStreaming := false }
    { st with progressStatus := none, messages := updateById aiMessageId f st.messages }
  else st

/-- The optimistic human message appended before streaming. -/
def optimisticUser (userMsgId content : String)
    (attachments : List MessageAttachment) : ChatMessage :=
  { id := userMsgId, role := .human, content := content,
    attachments := attachments, isStreaming := false }

/-- The empty streaming AI placeholder appended before streaming. -/
def aiPlaceholder (aiMessageId : String) : ChatMessage :=
  { id := aiMessageId, role := .ai, content := "", attachments := [],
    isStreaming := true }

/-- The catch-block text of the send/fork/edit operations. -/
def failureText : String := "Failed to get response. Please try again."

/-- The two setMessages calls every streaming operation starts with: append
the optimistic user message, set isLoading, then append the placeholder. -/
def withTurnAppended (st : ClientState) (userMsgId content : String)
    (attachments : List MessageAttachment) (aiMessageId : String) : ClientState :=
  let st1 := { st with
    messages := st.messages ++ [optimisticUser userMsgId content attachments],
    isLoading := true }
  { st1 with messages := st1.messages ++ [aiPlaceholder aiMessageId] }

/-- The finally block of the streaming operations on the success path. -/
def finishOk (st : ClientState) : ClientState :=
  { st with isLoading := false, progressStatus := none }

/-- The catch block of the streaming operations (replace the placeholder with
the failure text) followed by the finally block. -/
def catchFailure (aiMessageId : String) (st : ClientState) : ClientState :=
  let f := fun (m : ChatMessage) => { m with content := failureText, isStreaming := false }
  let st4 := { st with progressStatus := none,
                       messages := updateById aiMessageId f st.messages }
  { st4 with isLoading := false, progressStatus := none }

/-- loadHistory (useChat.ts): no-op without a thread; otherwise issues the
history request; histResult none embeds a fetch exception (caught, checkpoints
left unchanged); isHistoryLoading ends false either way. -/
def loadHistoryOp (st : ClientState) (histResult : Option (List Checkpoint)) :
    ClientState × List Effect :=
  match st.currentThreadId with
  | none => (st, [])
  | some t =>
    match histResult with
    | some h => ({ st with checkpoints := h, isHistoryLoading := false },
                 [Effect.historyReq t])
    | none => ({ st with isHistoryLoading := false }, [Effect.historyReq t])

/-- The body of sendMessage after the thread id is resolved: append the
optimistic user message and the streaming placeholder, issue the chat request,
consume the stream; on normal completion refresh the thread list, on a thrown
stream replace the placeholder with the failure text; finally clear isLoading
and progressStatus. -/
def sendMessageCore (userId : String) (st : ClientState) (content : String)
    (attachments : List MessageAttachment) (userMsgId aiMessageId : String)
    (outcome : StreamOutcome) (threadId : String) (effs : List Effect) :
    ClientState × List Effect :=
  let st2 := withTurnAppended st userMsgId content attachments aiMessageId
  let effs1 := effs ++ [Effect.chatReq content threadId userId attachments]
  match outcome with
  | .completed evs =>
    (finishOk (evs.foldl (sendEventStep aiMessageId) st2),
     effs1 ++ [Effect.refreshThreadsReq])
  | .threw evs =>
    (catchFailure aiMessageId (evs.foldl (sendEventStep aiMessageId) st2), effs1)

/-- sendMessage (useChat.ts): guarded on blank content and isLoading; creates
a thread first when none is selected (createResult none embeds a creation
failure, which returns early). -/
def sendMessage (userId : String) (st : ClientState) (content : String)
    (attachments : List MessageAttachment) (createResult : Option Thread)
    (userMsgId aiMessageId : String) (outcome : StreamOutcome) :
    ClientState × List Effect :=
  if strTrim content = "" ∨ st.isLoading then (st, [])
  else
    match st.currentThreadId with
    | some t =>
      sendMessageCore userId st content attachments userMsgId aiMessageId outcome t []
    | none =>
      match createResult with
      | none => (st, [Effect.createThreadReq userId])
      | some thread =>
        sendMessageCore userId
          { st with threads := thread :: st.threads,
                    currentThreadId := some thread.id }
          content attachments userMsgId aiMessageId outcome thread.id
          [Effect.createThreadReq userId]

/-- forkFromCheckpoint (useChat.ts): guarded like sendMessage plus a thread
requirement; clears the checkpoint selection, appends the optimistic user
message and placeholder, issues the fork request tagged with the checkpoint
id, consumes the stream with the fork event loop; on completion reloads the
checkpoint history and refreshes the thread list. -/
def forkFromCheckpoint (userId : String) (st : ClientState) (content : String)
    (checkpointId : String) (attachments : List MessageAttachment)
    (userMsgId aiMessageId : String) (histResult : Option (List Checkpoint))
    (outcome : StreamOutcome) : ClientState × List Effect :=
  match st.currentThreadId with
  | none => (st, [])
  | some t =>
    if strTrim content = "" ∨ st.isLoading then (st, [])
    else
      let st0 := { st with selectedCheckpoint := none }
      let st2 := withTurnAppended st0 userMsgId content attachments aiMessageId
      let effs1 := [Effect.forkReq content t userId checkpointId attachments]
      match outcome with
      | .completed evs =>
        let r := loadHistoryOp (evs.foldl (forkEventStep aiMessageId) st2) histResult
        (finishOk r.1, effs1 ++ r.2 ++ [Effect.refreshThreadsReq])
      | .threw evs =>
        (catchFailure aiMessageId (evs.foldl (forkEventStep aiMessageId) st2), effs1)

/-- messages[messageIndex]?.attachments || [] in editMessage. -/
def editOriginalAttachments (st : ClientState) (messageIndex : Nat) :
    List MessageAttachment :=
  match st.messages.get? messageIndex with
  | some m => m.attachments
  | none => []

/-- The checkpoint list editMessage searches: the cached list, or the freshly
fetched history when the cache is empty (an unfetchable history leaves the
empty cache in place). -/
def editEffectiveHistory (st : ClientState)
    (historyFetch : Option (List Checkpoint)) : List Checkpoint :=
  if st.checkpoints.isEmpty then
    match historyFetch with
    | some h => h
    | none => st.checkpoints
  else st.checkpoints

/-- The history-loading step of editMessage: when the checkpoint cache is
empty, fetch the thread history (issuing the request even when the fetch
throws, in which case the cache stays empty). -/
def editFetchPair (st : ClientState) (t : String)
    (historyFetch : Option (List Checkpoint)) : ClientState × List Effect :=
  if st.checkpoints.isEmpty then
    match historyFetch with
    | some h => ({ st with checkpoints := h }, [Effect.historyReq t])
    | none => (st, [Effect.historyReq t])
  else (st, [])

/-- editMessage (useChat.ts): guarded like sendMessage plus a thread
requirement; remembers the edited message's attachments, requests truncation of
the Message table to keep the first messageIndex rows, loads the checkpoint
history if the cache is empty, and looks for a checkpoint recording exactly
messageIndex messages.  If one exists the display is truncated and
forkFromCheckpoint runs with that checkpoint id; otherwise the display is
truncated and a plain chat request streams with the fork-style event loop
(the source duplicates that loop), followed by history and thread refreshes. -/
def editMessage (userId : String) (st : ClientState) (newContent : String)
    (messageIndex : Nat) (historyFetch : Option (List Checkpoint))
    (userMsgId aiMessageId : String) (histResult : Option (List Checkpoint))
    (outcome : StreamOutcome) : ClientState × List Effect :=
  match st.currentThreadId with
  | none => (st, [])
  | some t =>
    if strTrim newContent = "" ∨ st.isLoading then (st, [])
    else
      let originalAttachments := editOriginalAttachments st messageIndex
      let effs0 := [Effect.truncateReq t messageIndex]
      let fetchPair := editFetchPair st t historyFetch
      let st1 := fetchPair.1
      let targetCheckpoint :=
        st1.checkpoints.find? (fun cp => cp.messages.length == messageIndex)
      match targetCheckpoint with
      | some cp =>
        let st2 := { st1 with messages := st1.messages.take messageIndex }
        let r := forkFromCheckpoint userId st2 newContent cp.checkpoint_id
          originalAttachments userMsgId aiMessageId histResult outcome
        (r.1, effs0 ++ fetchPair.2 ++ r.2)
      | none =>
        let st2 := { st1 with messages := st1.messages.take messageIndex }
        let st4 := withTurnAppended st2 userMsgId newContent originalAttachments aiMessageId
        let effs1 := effs0 ++ fetchPair.2 ++
          [Effect.chatReq newContent t userId originalAttachments]
        match outcome with
        | .completed evs =>
          let r := loadHistoryOp (evs.foldl (forkEventStep aiMessageId) st4) histResult
          (finishOk r.1, effs1 ++ r.2 ++ [Effect.refreshThreadsReq])
        | .threw evs =>
          (catchFailure aiMessageId (evs.foldl (forkEventStep aiMessageId) st4), effs1)

/-- The loadMessages row mapping of useChat.ts: database rows become display
messages keyed "db-" ++ id. -/
def loadedMessage (msg : Message) : ChatMessage :=
  { id := "db-" ++ toString msg.id, role := msg.role, content := msg.content,
    attachments := msg.attachments, isStreaming := false }

/-- The display sequence loadMessages builds from a fetched Message table. -/
def loadedView (fetched : List Message) : List ChatMessage :=
  fetched.map loadedMessage

/-- loadMessages (useChat.ts): fetch the thread's rows and replace the display
sequence with their mapped view. -/
def loadMessages (st : ClientState) (threadId : String)
    (fetched : List Message) : ClientState × List Effect :=
  ({ st with messages := loadedView fetched }, [Effect.messagesReq threadId])

/-- The checkpoint.messages.map((msg, idx) => ...) element of selectCheckpoint:
ids are keyed by checkpoint id and index, non-"human" recorded roles render as
ai. -/
def checkpointDisplayMessage (checkpointId : String) (idx : Nat)
    (msg : CheckpointMessage) : ChatMessage :=
  { id := "checkpoint-" ++ checkpointId ++ "-" ++ toString idx,
    role := if msg.role = "human" then .human else .ai,
    content := msg.content, attachments := [], isStreaming := false }

/-- Index-passing map, embedding JavaScript Array.prototype.map with the index
argument. -/
def mapWithIndex (f : Nat → CheckpointMessage → ChatMessage) :
    Nat → List CheckpointMessage → List ChatMessage
  | _, [] => []
  | i, m :: ms => f i m :: mapWithIndex f (i + 1) ms

/-- The preview display sequence of a checkpoint. -/
def checkpointMessagesView (c : Checkpoint) : List ChatMessage :=
  mapWithIndex (checkpointDisplayMessage c.checkpoint_id) 0 c.messages

/-- selectCheckpoint (useChat.ts): record the selection; a non-null checkpoint
replaces the display with its recorded messages, null reloads the live rows of
the current thread (fetched carries the Message table rows the reload
returns). -/
def selectCheckpoint (st : ClientState) (checkpoint : Option Checkpoint)
    (fetched : List Message) : ClientState × List Effect :=
  let st0 := { st with selectedCheckpoint := checkpoint }
  match checkpoint with
  | some c => ({ st0 with messages := checkpointMessagesView c }, [])
  | none =>
    match st0.currentThreadId with
    | some t => loadMessages st0 t fetched
    | none => (st0, [])

/-- selectedCheckpoint !== null, as page.tsx passes it to ChatWindow. -/
def isPreviewingCheckpoint (st : ClientState) : Bool :=
  st.selectedCheckpoint.isSome

/-- The canEdit expression of ChatWindow.tsx:
message.role === "human" && !isLoading && !isPreviewingCheckpoint. -/
def canEdit (role : Role) (isLoading isPreviewing : Bool) : Bool :=
  (role == Role.human) && !isLoading && !isPreviewing

/-- deleteThread (useChat.ts): issue the delete request; on success drop the
thread from the list, and when it was the current thread also reset the
current id and clear the display (apiOk false embeds a thrown request, caught
with no state change). -/
def deleteThread (st : ClientState) (threadId : String) (apiOk : Bool) :
    ClientState × List Effect :=
  if apiOk then
    let st1 := { st with threads := st.threads.filter (fun th => th.id != threadId) }
    let st2 :=
      if st.currentThreadId = some threadId then
        { st1 with currentThreadId := none, messages := [] }
      else st1
    (st2, [Effect.deleteThreadReq threadId])
  else (st, [Effect.deleteThreadReq threadId])

/-- A concrete two-payload event parser used to exercise the stream readers on
concrete inputs. -/
def cParse : String → Option ChatEvent := fun s =>
  if s = "d" then some { type := "done", content := EventContent.absent }
  else if s = "t" then some { type := "token", content := EventContent.str "T" }
  else none

/-- A parser rejecting every payload, modelling a stream whose every data line
carries malformed JSON. -/
def nullParse : String → Option ChatEvent := fun _ => none


/-- A token event carrying an incremental text fragment. -/
def tokenEvent (s : String) : ChatEvent :=
  { type := "token", content := EventContent.str s }

/-- The terminal success event. -/
def doneEvent : ChatEvent :=
  { type := "done", content := EventContent.absent }

/-- The terminal failure event carrying an error text. -/
def errorEvent (s : String) : ChatEvent :=
  { type := "error", content := EventContent.str s }

/-- The full non-incremental payload event. -/
def messageEvent (s : String) : ChatEvent :=
  { type := "message", content := EventContent.str s }

/-- Concatenation of token fragments in arrival order. -/
def concatAll : List String → String
  | [] => ""
  | s :: rest => s ++ concatAll rest

/-- A concrete checkpoint fixture recording two messages. -/
def wChk : Checkpoint :=
  { checkpoint_id := "cp0", thread_id := "t0", checkpoint_ns := "",
    parent_checkpoint_id := none, created_at := none, step := 0,
    messages := [{ role := "human", content := "h0" },
                 { role := "ai", content := "a0" }] }

/-- A concrete thread fixture. -/
def wThread : Thread :=
  { id := "t0", user_id := "u", title := none, created_at := none,
    updated_at := none }

/-- A concrete Message-table fixture with a single human row. -/
def wTable : List Message :=
  [{ id := 1, thread_id := "t0", user_id := some "u", role := Role.human,
     content := "hi", message_id := none, attachments := [],
     created_at := none }]

/-- A concrete client state previewing wChk. -/
def wPreview : ClientState :=
  { messages := checkpointMessagesView wChk, isLoading := false,
    threads := [wThread], currentThreadId := some "t0",
    progressStatus := none, checkpoints := [wChk],
    selectedCheckpoint := some wChk, isHistoryLoading := false,
    showTimeline := true }

/-- A concrete live client state with an empty display. -/
def wLive : ClientState :=
  { messages := [], isLoading := false, threads := [wThread],
    currentThreadId := some "t0", progressStatus := none, checkpoints := [],
    selectedCheckpoint := none, isHistoryLoading := false,
    showTimeline := false }

/-- A concrete live client state whose display holds an optimistic message
with a locally generated id, matching the wTable row by content but not by
id. -/
def wOptimistic : ClientState :=
  { messages := [{ id := "user-100", role := Role.human, content := "hi",
                   attachments := [], isStreaming := false }],
    isLoading := false, threads := [wThread], currentThreadId := some "t0",
    progressStatus := none, checkpoints := [], selectedCheckpoint := none,
    isHistoryLoading := false, showTimeline := false }

/-- A concrete live client state whose display is exactly the loaded view of
wTable. -/
def wSynced : ClientState :=
  { messages := loadedView wTable, isLoading := false, threads := [wThread],
    currentThreadId := some "t0", progressStatus := none, checkpoints := [],
    selectedCheckpoint := none, isHistoryLoading := false,
    showTimeline := false }

/-- A concrete mid-stream client state holding only the AI placeholder. -/
def wMsgState : ClientState :=
  { messages := [aiPlaceholder "ai-1"], isLoading := true,
    threads := [wThread], currentThreadId := some "t0",
    progressStatus := none, checkpoints := [], selectedCheckpoint := none,
    isHistoryLoading := false, showTimeline := false }


theorem takeThrough_append_of_any (a b : List ChatEvent)
    (h : anyTerminal a = true) :
    takeThroughTerminal (a ++ b) = takeThroughTerminal a := by
  induction a with
  | nil => simp [anyTerminal] at h
  | cons e es ih =>
    by_cases he : e.isTerminal
    · simp [takeThroughTerminal, he]
    · simp only [anyTerminal, List.any_cons, Bool.or_eq_true] at h
      rcases h with h | h
      · exact absurd h he
      · simp [takeThroughTerminal, he, ih h]

theorem takeThrough_append_of_none (a b : List ChatEvent)
    (h : anyTerminal a = false) :
    takeThroughTerminal (a ++ b) = a ++ takeThroughTerminal b := by
  induction a with
  | nil => simp
  | cons e es ih =>
    simp only [anyTerminal, List.any_cons, Bool.or_eq_false_iff] at h
    simp [takeThroughTerminal, h.1, ih h.2]

theorem takeThrough_eq_self_of_none (a : List ChatEvent)
    (h : anyTerminal a = false) :
    takeThroughTerminal a = a := by
  have h2 := takeThrough_append_of_none a [] h
  simpa [takeThroughTerminal] using h2

theorem processLines_eq (parse : String → Option ChatEvent)
    (ls : List (List Char)) :
    processLines parse ls
      = (takeThroughTerminal (lineEvents parse ls),
         anyTerminal (lineEvents parse ls)) := by
  induction ls with
  | nil => rfl
  | cons l ls ih =>
    simp only [processLines, lineEvents, List.filterMap_cons] at ih ⊢
    by_cases hp : dataPrefixChars.isPrefixOf l
    · rw [if_pos hp, if_pos hp]
      cases hparse : parse (String.mk (l.drop 6)) with
      | none => exact ih
      | some e =>
        by_cases ht : e.isTerminal
        · simp only [if_pos ht, takeThroughTerminal, ht, if_pos,
            anyTerminal, List.any_cons, Bool.true_or]
        · simp only [Bool.not_eq_true] at ht
          simp only [ht, Bool.false_eq_true, if_false, takeThroughTerminal,
            anyTerminal, List.any_cons, Bool.false_or, ih]
    · rw [if_neg hp, if_neg hp]
      exact ih

theorem frameLineEvents_of_trim_nil (parse : String → Option ChatEvent)
    (f : List Char) (h : jsTrim f = []) :
    frameLineEvents parse f = [] := by
  simp only [frameLineEvents, h]
  rfl

theorem processFrames_eq (parse : String → Option ChatEvent)
    (fs : List (List Char)) :
    processFrames parse fs
      = (takeThroughTerminal ((fs.map (frameLineEvents parse)).flatten),
         anyTerminal ((fs.map (frameLineEvents parse)).flatten)) := by
  induction fs with
  | nil => rfl
  | cons f fs ih =>
    have hfe : lineEvents parse (splitN (jsTrim f)) = frameLineEvents parse f := rfl
    simp only [processFrames, List.map_cons, List.flatten_cons]
    by_cases hf : (jsTrim f).isEmpty
    · rw [if_pos hf]
      have hnil : jsTrim f = [] := by
        cases hc : jsTrim f with
        | nil => rfl
        | cons c cs => rw [hc] at hf; simp [List.isEmpty] at hf
      rw [ih, frameLineEvents_of_trim_nil parse f hnil]
      simp
    · rw [if_neg hf, processLines_eq parse (splitN (jsTrim f)), hfe]
      by_cases hterm : anyTerminal (frameLineEvents parse f)
      · rw [if_pos hterm, takeThrough_append_of_any _ _ hterm]
        simp only [anyTerminal, List.any_append, Bool.or_eq_true] at hterm ⊢
        simp [hterm]
      · simp only [Bool.not_eq_true] at hterm
        rw [if_neg (by rw [hterm]; exact Bool.false_ne_true), ih,
          takeThrough_append_of_none _ _ hterm,
          takeThrough_eq_self_of_none _ hterm]
        simp only [anyTerminal, List.any_append] at hterm ⊢
        rw [hterm, Bool.false_or]

theorem finishBuffer_eq_specTrailing (parse : String → Option ChatEvent)
    (b : List Char) :
    finishBuffer parse b = specTrailing parse b := by
  simp only [finishBuffer, specTrailing]
  by_cases h1 : (jsTrim b).isEmpty
  · have hnil : jsTrim b = [] := by
      cases hc : jsTrim b with
      | nil => rfl
      | cons c cs => rw [hc] at h1; simp [List.isEmpty] at h1
    rw [if_pos h1, hnil]
    have hpre : dataPrefixChars.isPrefixOf ([] : List Char) = false := by decide
    rw [hpre]
    simp
  · rw [if_neg h1]
    by_cases h2 : dataPrefixChars.isPrefixOf (jsTrim b)
    · rw [if_pos h2, if_pos h2]
      cases parse (String.mk ((jsTrim b).drop 6)) <;> rfl
    · rw [if_neg h2, if_neg h2]

theorem terminalOnlyLast_short (l : List ChatEvent) (h : l.length ≤ 1) :
    terminalOnlyLast l := by
  intro i e _ hlen
  exact absurd (Nat.lt_of_lt_of_le hlen h) (by omega)

theorem terminalOnlyLast_cons (e : ChatEvent) (l : List ChatEvent)
    (he : e.isTerminal = false) (hl : terminalOnlyLast l) :
    terminalOnlyLast (e :: l) := by
  intro i f hf hlen
  cases i with
  | zero =>
    rw [List.getElem?_cons_zero] at hf
    cases hf
    exact he
  | succ i =>
    rw [List.getElem?_cons_succ] at hf
    refine hl i f hf ?_
    simp only [List.length_cons] at hlen
    omega

theorem noTerminal_of_any_false (l : List ChatEvent)
    (h : anyTerminal l = false) : noTerminal l := by
  intro e he
  simp only [anyTerminal, List.any_eq_false] at h
  simpa using h e he

theorem takeThrough_only_last (l : List ChatEvent) :
    terminalOnlyLast (takeThroughTerminal l) := by
  induction l with
  | nil => exact terminalOnlyLast_short _ (by simp [takeThroughTerminal])
  | cons e es ih =>
    by_cases he : e.isTerminal
    · simp only [takeThroughTerminal, he, if_true]
      exact terminalOnlyLast_short _ (by simp)
    · simp only [Bool.not_eq_true] at he
      simp only [takeThroughTerminal, he, Bool.false_eq_true, if_false]
      exact terminalOnlyLast_cons e _ he ih

theorem terminalOnlyLast_append (a b : List ChatEvent)
    (ha : noTerminal a) (hb : terminalOnlyLast b) :
    terminalOnlyLast (a ++ b) := by
  intro i e hi hlen
  by_cases hia : i < a.length
  · rw [List.getElem?_append_left hia] at hi
    exact ha e (List.getElem?_mem hi)
  · push_neg at hia
    rw [List.getElem?_append_right hia] at hi
    refine hb (i - a.length) e hi ?_
    rw [List.length_append] at hlen
    omega

theorem finishBuffer_length (parse : String → Option ChatEvent) (b : List Char) :
    (finishBuffer parse b).length ≤ 1 := by
  simp only [finishBuffer]
  by_cases h1 : (jsTrim b).isEmpty
  · rw [if_pos h1]; simp
  · rw [if_neg h1]
    by_cases h2 : dataPrefixChars.isPrefixOf (jsTrim b)
    · rw [if_pos h2]
      cases parse (String.mk ((jsTrim b).drop 6)) <;> simp
    · rw [if_neg h2]; simp

theorem runChunks_only_last (parse : String → Option ChatEvent)
    (chunks : List String) :
    ∀ buffer, terminalOnlyLast (runChunks parse buffer chunks) := by
  induction chunks with
  | nil => intro buffer; exact terminalOnlyLast_short _ (finishBuffer_length parse buffer)
  | cons c cs ih =>
    intro buffer
    simp only [runChunks]
    rw [processFrames_eq]
    dsimp only
    by_cases hterm :
        anyTerminal (((splitNN (buffer ++ c.toList)).dropLast.map (frameLineEvents parse)).flatten)
    · rw [if_pos hterm]
      exact takeThrough_only_last _
    · simp only [Bool.not_eq_true] at hterm
      rw [if_neg (by rw [hterm]; exact Bool.false_ne_true),
        takeThrough_eq_self_of_none _ hterm]
      exact terminalOnlyLast_append _ _ (noTerminal_of_any_false _ hterm) (ih _)

/-- C7: for every parse function and every chunk sequence delivered by the
response body, once the streamChat or streamFork reader yields a done or error
event it terminates: any yielded event that is not the last one is
non-terminal. -/
theorem c7_reader_stops_after_terminal (parse : String → Option ChatEvent)
    (chunks : List String) (i j : Nat) (e f : ChatEvent)
    (hce : (streamChatEvents parse chunks)[i]? = some e)
    (hci : i + 1 < (streamChatEvents parse chunks).length)
    (hfe : (streamForkEvents parse chunks)[j]? = some f)
    (hfj : j + 1 < (streamForkEvents parse chunks).length) :
    e.isTerminal = false ∧ f.isTerminal = false :=
  ⟨runChunks_only_last parse chunks [] i e hce hci,
   runChunks_only_last parse chunks [] j f hfe hfj⟩

theorem c7_reader_stops_after_terminal_witness :
    ChatEvent.isTerminal { type := "token", content := EventContent.str "T" } = false ∧
    ChatEvent.isTerminal { type := "token", content := EventContent.str "T" } = false :=
  c7_reader_stops_after_terminal cParse ["data: t\n\ndata: t\n\n"] 0 0
    { type := "token", content := EventContent.str "T" }
    { type := "token", content := EventContent.str "T" }
    (by decide) (by decide) (by decide) (by decide)

/-- C8 counterexample: the claim says every "data: " line of every frame
yields its event; on a body whose first frame carries a done event followed by
a frame carrying a token event, the reader stops at the done event and never
yields the token, so the claimed parse differs from the implemented one. -/
theorem c8_counterexample :
    streamChatEvents cParse ["data: d\n\ndata: t\n\n"]
      ≠ claimedStreamParse cParse "data: d\n\ndata: t\n\n" := by
  decide

/-- C8 (amended): the reader splits the body into frames at blank lines and
parses every "data: " line of the complete frames in order, but stops
permanently once a done/error event is yielded, and the text after the last
blank-line separator is treated as a single record, parsed only when its
trimmed whole starts with "data: ". -/
theorem c8_parser_frames_amended (parse : String → Option ChatEvent)
    (body : String) :
    streamChatEvents parse [body] = specStreamParse parse body := by
  simp only [streamChatEvents, runChunks, List.nil_append, specStreamParse,
    String.toList]
  rw [processFrames_eq]
  dsimp only
  by_cases hterm :
      anyTerminal (((splitNN body.data).dropLast.map (frameLineEvents parse)).flatten)
  · rw [if_pos hterm, if_pos hterm]
  · simp only [Bool.not_eq_true] at hterm
    rw [if_neg (by rw [hterm]; exact Bool.false_ne_true),
      if_neg (by rw [hterm]; exact Bool.false_ne_true),
      takeThrough_eq_self_of_none _ hterm,
      finishBuffer_eq_specTrailing]

theorem lineEvents_all_none (parse : String → Option ChatEvent)
    (h : ∀ s, parse s = none) (ls : List (List Char)) :
    lineEvents parse ls = [] := by
  simp only [lineEvents, List.filterMap_eq_nil_iff]
  intro l _
  by_cases hp : dataPrefixChars.isPrefixOf l
  · rw [if_pos hp]; exact h _
  · rw [if_neg hp]

theorem finishBuffer_all_none (parse : String → Option ChatEvent)
    (h : ∀ s, parse s = none) (b : List Char) :
    finishBuffer parse b = [] := by
  rw [finishBuffer_eq_specTrailing]
  simp only [specTrailing]
  by_cases hp : dataPrefixChars.isPrefixOf (jsTrim b)
  · rw [if_pos hp, h]; rfl
  · rw [if_neg hp]

theorem runChunks_all_none (parse : String → Option ChatEvent)
    (h : ∀ s, parse s = none) (chunks : List String) :
    ∀ buffer, runChunks parse buffer chunks = [] := by
  induction chunks with
  | nil => intro buffer; exact finishBuffer_all_none parse h buffer
  | cons c cs ih =>
    intro buffer
    have hfl : ∀ f, frameLineEvents parse f = [] :=
      fun f => lineEvents_all_none parse h (splitN (jsTrim f))
    have hnil : ∀ (xs : List (List Char)),
        (xs.map (frameLineEvents parse)).flatten = [] := by
      intro xs
      induction xs with
      | nil => rfl
      | cons x xs ihx => simp [hfl, ihx]
    simp only [runChunks]
    rw [processFrames_eq, hnil _]
    dsimp only
    simp only [anyTerminal, List.any_nil, Bool.false_eq_true, if_false,
      takeThroughTerminal, List.nil_append]
    exact ih _

/-- C9: the stream readers never raise on malformed payloads: a "data: " line
whose payload fails to parse is skipped and line processing continues, and a
stream every one of whose payloads is malformed yields no events at all (and
both total functions terminate by construction when the chunk list ends). -/
theorem c9_malformed_lines_skipped :
    (∀ (parse : String → Option ChatEvent) (l : List Char) (ls : List (List Char)),
        dataPrefixChars.isPrefixOf l = true →
        parse (String.mk (l.drop 6)) = none →
        processLines parse (l :: ls) = processLines parse ls)
    ∧ (∀ (parse : String → Option ChatEvent) (chunks : List String),
        (∀ s, parse s = none) →
        streamChatEvents parse chunks = [] ∧ streamForkEvents parse chunks = []) := by
  constructor
  · intro parse l ls hp hparse
    simp only [processLines]
    rw [if_pos hp, hparse]
  · intro parse chunks h
    exact ⟨runChunks_all_none parse h chunks [], runChunks_all_none parse h chunks []⟩

theorem c9_malformed_lines_skipped_witness :
    processLines cParse ["data: zz".data, "data: t".data]
        = processLines cParse ["data: t".data]
    ∧ (streamChatEvents nullParse ["data: x\n\n"] = []
       ∧ streamForkEvents nullParse ["data: x\n\n"] = []) :=
  ⟨c9_malformed_lines_skipped.1 cParse "data: zz".data ["data: t".data]
      (by decide) (by decide),
   c9_malformed_lines_skipped.2 nullParse ["data: x\n\n"] (fun _ => rfl)⟩

theorem sendEventStep_frame (a : String) (st : ClientState) (ev : ChatEvent) :
    (sendEventStep a st ev).currentThreadId = st.currentThreadId
    ∧ (sendEventStep a st ev).isLoading = st.isLoading
    ∧ (sendEventStep a st ev).selectedCheckpoint = st.selectedCheckpoint
    ∧ (sendEventStep a st ev).checkpoints = st.checkpoints
    ∧ (sendEventStep a st ev).threads = st.threads := by
  unfold sendEventStep
  split_ifs <;> exact ⟨rfl, rfl, rfl, rfl, rfl⟩

theorem forkEventStep_frame (a : String) (st : ClientState) (ev : ChatEvent) :
    (forkEventStep a st ev).currentThreadId = st.currentThreadId
    ∧ (forkEventStep a st ev).isLoading = st.isLoading
    ∧ (forkEventStep a st ev).selectedCheckpoint = st.selectedCheckpoint
    ∧ (forkEventStep a st ev).checkpoints = st.checkpoints
    ∧ (forkEventStep a st ev).threads = st.threads := by
  unfold forkEventStep
  split_ifs <;> exact ⟨rfl, rfl, rfl, rfl, rfl⟩

theorem foldl_sendEventStep_frame (a : String) (evs : List ChatEvent) :
    ∀ st : ClientState,
      (evs.foldl (sendEventStep a) st).currentThreadId = st.currentThreadId
      ∧ (evs.foldl (sendEventStep a) st).isLoading = st.isLoading
      ∧ (evs.foldl (sendEventStep a) st).selectedCheckpoint = st.selectedCheckpoint
      ∧ (evs.foldl (sendEventStep a) st).checkpoints = st.checkpoints
      ∧ (evs.foldl (sendEventStep a) st).threads = st.threads := by
  induction evs with
  | nil => intro st; exact ⟨rfl, rfl, rfl, rfl, rfl⟩
  | cons e evs ih =>
    intro st
    simp only [List.foldl_cons]
    obtain ⟨h1, h2, h3, h4, h5⟩ := ih (sendEventStep a st e)
    obtain ⟨g1, g2, g3, g4, g5⟩ := sendEventStep_frame a st e
    exact ⟨h1.trans g1, h2.trans g2, h3.trans g3, h4.trans g4, h5.trans g5⟩

theorem foldl_forkEventStep_frame (a : String) (evs : List ChatEvent) :
    ∀ st : ClientState,
      (evs.foldl (forkEventStep a) st).currentThreadId = st.currentThreadId
      ∧ (evs.foldl (forkEventStep a) st).isLoading = st.isLoading
      ∧ (evs.foldl (forkEventStep a) st).selectedCheckpoint = st.selectedCheckpoint
      ∧ (evs.foldl (forkEventStep a) st).checkpoints = st.checkpoints
      ∧ (evs.foldl (forkEventStep a) st).threads = st.threads := by
  induction evs with
  | nil => intro st; exact ⟨rfl, rfl, rfl, rfl, rfl⟩
  | cons e evs ih =>
    intro st
    simp only [List.foldl_cons]
    obtain ⟨h1, h2, h3, h4, h5⟩ := ih (forkEventStep a st e)
    obtain ⟨g1, g2, g3, g4, g5⟩ := forkEventStep_frame a st e
    exact ⟨h1.trans g1, h2.trans g2, h3.trans g3, h4.trans g4, h5.trans g5⟩

theorem loadHistoryOp_frame (st : ClientState) (h : Option (List Checkpoint)) :
    (loadHistoryOp st h).1.selectedCheckpoint = st.selectedCheckpoint
    ∧ (loadHistoryOp st h).1.messages = st.messages
    ∧ (loadHistoryOp st h).1.currentThreadId = st.currentThreadId
    ∧ (loadHistoryOp st h).1.threads = st.threads := by
  cases hcc : st.currentThreadId <;> cases h <;> simp [loadHistoryOp, hcc]

theorem loadHistoryOp_effects (st : ClientState) (h : Option (List Checkpoint))
    (t : String) (ht : st.currentThreadId = some t) :
    (loadHistoryOp st h).2 = [Effect.historyReq t] := by
  unfold loadHistoryOp
  rw [ht]
  cases h <;> rfl

theorem updateById_append_last (a : String) (f : ChatMessage → ChatMessage)
    (M : List ChatMessage) (ph : ChatMessage)
    (hM : ∀ m ∈ M, m.id ≠ a) (hph : ph.id = a) :
    updateById a f (M ++ [ph]) = M ++ [f ph] := by
  simp only [updateById, List.map_append, List.map_cons, List.map_nil]
  congr 1
  · have hid : ∀ m ∈ M, (if m.id = a then f m else m) = m :=
      fun m hm => if_neg (hM m hm)
    exact (List.map_congr_left hid).trans (List.map_id' M)
  · rw [if_pos hph]

theorem sendEventStep_token_messages (a : String) (st : ClientState) (s : String) :
    (sendEventStep a st (tokenEvent s)).messages
      = updateById a (fun m => { m with content := m.content ++ s }) st.messages := by
  simp [sendEventStep, tokenEvent, contentStr]

theorem sendEventStep_done_messages (a : String) (st : ClientState) :
    (sendEventStep a st doneEvent).messages
      = updateById a (fun m => { m with isStreaming := false }) st.messages := by
  simp [sendEventStep, doneEvent]

theorem sendEventStep_error_messages (a : String) (st : ClientState) (s : String) :
    (sendEventStep a st (errorEvent s)).messages
      = updateById a (fun m => ChatMessage.mk m.id m.role ("Error: " ++ s) m.attachments false) st.messages := by
  simp [sendEventStep, errorEvent, errorContentStr]

theorem forkEventStep_token_messages (a : String) (st : ClientState) (s : String) :
    (forkEventStep a st (tokenEvent s)).messages
      = updateById a (fun m => { m with content := m.content ++ s }) st.messages := by
  simp [forkEventStep, tokenEvent, contentStr]

theorem forkEventStep_done_messages (a : String) (st : ClientState) :
    (forkEventStep a st doneEvent).messages
      = updateById a (fun m => { m with isStreaming := false }) st.messages := by
  simp [forkEventStep, doneEvent]

theorem forkEventStep_error_messages (a : String) (st : ClientState) (s : String) :
    (forkEventStep a st (errorEvent s)).messages
      = updateById a (fun m => ChatMessage.mk m.id m.role ("Error: " ++ s) m.attachments false) st.messages := by
  simp [forkEventStep, errorEvent, errorContentStr]

theorem foldl_sendEventStep_tokens (a : String) (tokens : List String) :
    ∀ (st : ClientState) (M : List ChatMessage) (ph : ChatMessage),
      st.messages = M ++ [ph] → ph.id = a → (∀ m ∈ M, m.id ≠ a) →
      ((tokens.map tokenEvent).foldl (sendEventStep a) st).messages
        = M ++ [{ ph with content := ph.content ++ concatAll tokens }] := by
  induction tokens with
  | nil =>
    intro st M ph hst hph hM
    simp only [List.map_nil, List.foldl_nil, concatAll, String.append_empty]
    rw [hst]
  | cons s rest ih =>
    intro st M ph hst hph hM
    simp only [List.map_cons, List.foldl_cons]
    have hstep : (sendEventStep a st (tokenEvent s)).messages
        = M ++ [{ ph with content := ph.content ++ s }] := by
      rw [sendEventStep_token_messages, hst,
        updateById_append_last a _ M ph hM hph]
    rw [ih (sendEventStep a st (tokenEvent s)) M
      { ph with content := ph.content ++ s } hstep hph hM]
    simp only [concatAll]
    rw [String.append_assoc]

theorem foldl_forkEventStep_tokens (a : String) (tokens : List String) :
    ∀ (st : ClientState) (M : List ChatMessage) (ph : ChatMessage),
      st.messages = M ++ [ph] → ph.id = a → (∀ m ∈ M, m.id ≠ a) →
      ((tokens.map tokenEvent).foldl (forkEventStep a) st).messages
        = M ++ [{ ph with content := ph.content ++ concatAll tokens }] := by
  induction tokens with
  | nil =>
    intro st M ph hst hph hM
    simp only [List.map_nil, List.foldl_nil, concatAll, String.append_empty]
    rw [hst]
  | cons s rest ih =>
    intro st M ph hst hph hM
    simp only [List.map_cons, List.foldl_cons]
    have hstep : (forkEventStep a st (tokenEvent s)).messages
        = M ++ [{ ph with content := ph.content ++ s }] := by
      rw [forkEventStep_token_messages, hst,
        updateById_append_last a _ M ph hM hph]
    rw [ih (forkEventStep a st (tokenEvent s)) M
      { ph with content := ph.content ++ s } hstep hph hM]
    simp only [concatAll]
    rw [String.append_assoc]

theorem send_core_reduce (userId : String) (st : ClientState) (content : String)
    (atts : List MessageAttachment) (uId aId : String) (outcome : StreamOutcome)
    (t : String) (ht : st.currentThreadId = some t) (hc : strTrim content ≠ "")
    (hl : st.isLoading = false) :
    sendMessage userId st content atts none uId aId outcome
      = sendMessageCore userId st content atts uId aId outcome t [] := by
  unfold sendMessage
  rw [if_neg (by simp [hc, hl]), ht]

theorem fork_selected_none (userId : String) (st : ClientState)
    (content checkpointId : String) (atts : List MessageAttachment)
    (uId aId : String) (hr : Option (List Checkpoint)) (outcome : StreamOutcome)
    (t : String) (ht : st.currentThreadId = some t) (hc : strTrim content ≠ "")
    (hl : st.isLoading = false) :
    (forkFromCheckpoint userId st content checkpointId atts uId aId hr
        outcome).1.selectedCheckpoint = none := by
  unfold forkFromCheckpoint
  simp only [ht]
  rw [if_neg (by simp [hc, hl])]
  cases outcome with
  | completed evs =>
    exact ((loadHistoryOp_frame _ hr).1.trans
      ((foldl_forkEventStep_frame aId evs _).2.2.1))
  | threw evs =>
    exact ((foldl_forkEventStep_frame aId evs _).2.2.1)

theorem fork_effects_completed (userId : String) (st : ClientState)
    (content checkpointId : String) (atts : List MessageAttachment)
    (uId aId : String) (hr : Option (List Checkpoint)) (evs : List ChatEvent)
    (t : String) (ht : st.currentThreadId = some t) (hc : strTrim content ≠ "")
    (hl : st.isLoading = false) :
    (forkFromCheckpoint userId st content checkpointId atts uId aId hr
        (StreamOutcome.completed evs)).2
      = [Effect.forkReq content t userId checkpointId atts,
         Effect.historyReq t, Effect.refreshThreadsReq] := by
  unfold forkFromCheckpoint
  simp only [ht]
  rw [if_neg (by simp [hc, hl])]
  have hX : ((evs.foldl (forkEventStep aId)
      (withTurnAppended
        { st with currentThreadId := some t, selectedCheckpoint := none }
        uId content atts aId))).currentThreadId = some t :=
    (foldl_forkEventStep_frame aId evs _).1
  rw [loadHistoryOp_effects _ hr t hX]
  rfl

theorem fork_messages_completed_nil (userId : String) (st : ClientState)
    (content checkpointId : String) (atts : List MessageAttachment)
    (uId aId : String) (hr : Option (List Checkpoint)) (t : String)
    (ht : st.currentThreadId = some t) (hc : strTrim content ≠ "")
    (hl : st.isLoading = false) :
    (forkFromCheckpoint userId st content checkpointId atts uId aId hr
        (StreamOutcome.completed [])).1.messages
      = st.messages ++ [optimisticUser uId content atts, aiPlaceholder aId] := by
  unfold forkFromCheckpoint
  simp only [ht]
  rw [if_neg (by simp [hc, hl])]
  exact ((loadHistoryOp_frame _ hr).2.1.trans
    (by simp [withTurnAppended, List.append_assoc]))

/-- C2 counterexample: from a reachable preview state (checkpoint selected,
display showing its recorded messages), invoking sendMessage leaves the
checkpoint selection in place and appends the optimistic turn after the
preview content, producing a mixed display - the claim that send clears the
selection before appending fails. -/
theorem c2_counterexample :
    (sendMessage "u" wPreview "hi" [] none "user-1" "ai-1"
        (StreamOutcome.completed [])).1.selectedCheckpoint = some wChk
    ∧ (sendMessage "u" wPreview "hi" [] none "user-1" "ai-1"
        (StreamOutcome.completed [])).1.messages
      = checkpointMessagesView wChk
        ++ [optimisticUser "user-1" "hi" [], aiPlaceholder "ai-1"] := by
  decide


/-- C3 counterexample: when consuming the stream throws (the catch path of
sendMessage, reached for example when the network drops mid-read), the
placeholder is replaced but the thread list is not refreshed, so the refresh
does not happen on every outcome as claimed. -/
theorem c3_counterexample :
    Effect.refreshThreadsReq ∉
      (sendMessage "u" wLive "hi" [] none "user-1" "ai-1"
        (StreamOutcome.threw [])).2 := by
  decide

/-- C3 (amended): sendMessage appends one optimistic human message followed by
one empty streaming AI placeholder; token events append their text to the
placeholder by string concatenation in arrival order; a done event clears the
streaming flag leaving the accumulated content intact; an error event replaces
the placeholder content with an error marker and clears the flag; after every
normally completed stream (whether it ended in done or error) the thread list
is refreshed, but when consuming the stream throws an exception the
placeholder is replaced with a failure message and no refresh is issued. -/
theorem c3_send_stream_amended (userId : String) (st : ClientState)
    (content : String) (atts : List MessageAttachment) (uId aId t : String)
    (tokens : List String) (errText : String) (evs : List ChatEvent)
    (ht : st.currentThreadId = some t) (hc : strTrim content ≠ "")
    (hl : st.isLoading = false) (hne : uId ≠ aId)
    (hfresh : ∀ m ∈ st.messages, m.id ≠ aId) :
    ((sendMessage userId st content atts none uId aId
        (StreamOutcome.completed evs)).2
      = [Effect.chatReq content t userId atts, Effect.refreshThreadsReq])
    ∧ ((sendMessage userId st content atts none uId aId
        (StreamOutcome.completed (tokens.map tokenEvent))).1.messages
      = st.messages ++ [optimisticUser uId content atts,
          { id := aId, role := Role.ai, content := concatAll tokens,
            attachments := [], isStreaming := true }])
    ∧ ((sendMessage userId st content atts none uId aId
        (StreamOutcome.completed
          (tokens.map tokenEvent ++ [doneEvent]))).1.messages
      = st.messages ++ [optimisticUser uId content atts,
          { id := aId, role := Role.ai, content := concatAll tokens,
            attachments := [], isStreaming := false }])
    ∧ ((sendMessage userId st content atts none uId aId
        (StreamOutcome.completed
          (tokens.map tokenEvent ++ [errorEvent errText]))).1.messages
      = st.messages ++ [optimisticUser uId content atts,
          { id := aId, role := Role.ai, content := "Error: " ++ errText,
            attachments := [], isStreaming := false }])
    ∧ ((sendMessage userId st content atts none uId aId
        (StreamOutcome.threw (tokens.map tokenEvent))).2
      = [Effect.chatReq content t userId atts])
    ∧ ((sendMessage userId st content atts none uId aId
        (StreamOutcome.threw (tokens.map tokenEvent))).1.messages
      = st.messages ++ [optimisticUser uId content atts,
          { id := aId, role := Role.ai, content := failureText,
            attachments := [], isStreaming := false }]) := by
  have hM : ∀ m ∈ st.messages ++ [optimisticUser uId content atts], m.id ≠ aId := by
    intro m hm
    rcases List.mem_append.mp hm with h | h
    · exact hfresh m h
    · rw [List.mem_singleton] at h
      subst h
      simpa [optimisticUser] using hne
  have htok := foldl_sendEventStep_tokens aId tokens
    (withTurnAppended st uId content atts aId)
    (st.messages ++ [optimisticUser uId content atts]) (aiPlaceholder aId)
    rfl rfl hM
  refine ⟨?_, ?_, ?_, ?_, ?_, ?_⟩
  · rw [send_core_reduce userId st content atts uId aId _ t ht hc hl]
    rfl
  · rw [send_core_reduce userId st content atts uId aId _ t ht hc hl]
    show ((tokens.map tokenEvent).foldl (sendEventStep aId)
      (withTurnAppended st uId content atts aId)).messages = _
    rw [htok]
    simp [aiPlaceholder, List.append_assoc]
  · rw [send_core_reduce userId st content atts uId aId _ t ht hc hl]
    show ((tokens.map tokenEvent ++ [doneEvent]).foldl (sendEventStep aId)
      (withTurnAppended st uId content atts aId)).messages = _
    rw [List.foldl_append]
    simp only [List.foldl_cons, List.foldl_nil]
    rw [sendEventStep_done_messages, htok,
      updateById_append_last aId _ _ _ hM rfl]
    simp [aiPlaceholder, List.append_assoc]
  · rw [send_core_reduce userId st content atts uId aId _ t ht hc hl]
    show ((tokens.map tokenEvent ++ [errorEvent errText]).foldl (sendEventStep aId)
      (withTurnAppended st uId content atts aId)).messages = _
    rw [List.foldl_append]
    simp only [List.foldl_cons, List.foldl_nil]
    rw [sendEventStep_error_messages, htok,
      updateById_append_last aId _ _ _ hM rfl]
    simp [aiPlaceholder, List.append_assoc]
  · rw [send_core_reduce userId st content atts uId aId _ t ht hc hl]
    rfl
  · rw [send_core_reduce userId st content atts uId aId _ t ht hc hl]
    show updateById aId
        (fun m => { m with content := failureText, isStreaming := false })
        (((tokens.map tokenEvent).foldl (sendEventStep aId)
          (withTurnAppended st uId content atts aId)).messages) = _
    rw [htok, updateById_append_last aId _ _ _ hM rfl]
    simp [aiPlaceholder, List.append_assoc]

theorem c3_send_stream_amended_witness :
    (sendMessage "u" wLive "hi" [] none "user-1" "ai-1"
        (StreamOutcome.completed [])).2
      = [Effect.chatReq "hi" "t0" "u" [], Effect.refreshThreadsReq] :=
  (c3_send_stream_amended "u" wLive "hi" [] "user-1" "ai-1" "t0" ["a"] "boom" []
    (by decide) (by decide) (by decide) (by decide) (by decide)).1

/-- C4 counterexample: sendMessage applies a full "message" event to the
placeholder (replacing its content and clearing the streaming flag) while the
forkFromCheckpoint event loop has no case for it and leaves the state
unchanged, so the two handlers are not identical on message events. -/
theorem c4_counterexample :
    forkEventStep "ai-1" wMsgState (messageEvent "hello")
      ≠ sendEventStep "ai-1" wMsgState (messageEvent "hello") := by
  decide

/-- C4 (amended): the fork event handler treats progress, token, done and
error events exactly as the send handler does (message events, which send
applies and fork ignores, excepted); fork clears the checkpoint selection
first, tags its request with the checkpoint id, and after the stream completes
refreshes both the checkpoint list and the thread list. -/
theorem c4_fork_equiv_amended :
    (∀ (a : String) (st : ClientState) (ev : ChatEvent), ev.type ≠ "message" →
        forkEventStep a st ev = sendEventStep a st ev)
    ∧ (∀ (userId : String) (st : ClientState) (content checkpointId : String)
        (atts : List MessageAttachment) (uId aId : String)
        (hr : Option (List Checkpoint)) (evs : List ChatEvent) (t : String),
        st.currentThreadId = some t → strTrim content ≠ "" →
        st.isLoading = false →
        (forkFromCheckpoint userId st content checkpointId atts uId aId hr
            (StreamOutcome.completed evs)).1.selectedCheckpoint = none
        ∧ (forkFromCheckpoint userId st content checkpointId atts uId aId hr
            (StreamOutcome.completed evs)).2
          = [Effect.forkReq content t userId checkpointId atts,
             Effect.historyReq t, Effect.refreshThreadsReq]) := by
  constructor
  · intro a st ev hmsg
    unfold forkEventStep sendEventStep
    by_cases h1 : ev.type = "progress"
    · rw [if_pos h1, if_pos h1]
    · rw [if_neg h1, if_neg h1]
      by_cases h2 : ev.type = "token"
      · rw [if_pos h2, if_pos h2]
      · rw [if_neg h2, if_neg h2, if_neg hmsg]
  · intro userId st content checkpointId atts uId aId hr evs t ht hc hl
    exact ⟨fork_selected_none userId st content checkpointId atts uId aId hr
        (StreamOutcome.completed evs) t ht hc hl,
      fork_effects_completed userId st content checkpointId atts uId aId hr
        evs t ht hc hl⟩

theorem c4_fork_equiv_amended_witness :
    forkEventStep "ai-1" wMsgState doneEvent
      = sendEventStep "ai-1" wMsgState doneEvent
    ∧ ((forkFromCheckpoint "u" wLive "hi" "cp0" [] "user-1" "ai-1" none
          (StreamOutcome.completed [])).1.selectedCheckpoint = none
       ∧ (forkFromCheckpoint "u" wLive "hi" "cp0" [] "user-1" "ai-1" none
          (StreamOutcome.completed [])).2
         = [Effect.forkReq "hi" "t0" "u" "cp0" [],
            Effect.historyReq "t0", Effect.refreshThreadsReq]) :=
  ⟨c4_fork_equiv_amended.1 "ai-1" wMsgState doneEvent (by decide),
   c4_fork_equiv_amended.2 "u" wLive "hi" "cp0" [] "user-1" "ai-1" none []
     "t0" (by decide) (by decide) (by decide)⟩

theorem editFetchPair_frame (st : ClientState) (t : String)
    (hf : Option (List Checkpoint)) :
    (editFetchPair st t hf).1.currentThreadId = st.currentThreadId
    ∧ (editFetchPair st t hf).1.isLoading = st.isLoading
    ∧ (editFetchPair st t hf).1.messages = st.messages
    ∧ (editFetchPair st t hf).1.checkpoints = editEffectiveHistory st hf
    ∧ (editFetchPair st t hf).2
      = (if st.checkpoints.isEmpty then [Effect.historyReq t] else []) := by
  by_cases hemp : st.checkpoints.isEmpty <;> cases hf <;>
    simp [editFetchPair, editEffectiveHistory, hemp]

theorem finishOk_messages (st : ClientState) :
    (finishOk st).messages = st.messages := rfl

/-- C1: editMessage first requests truncation of the Message table to keep
positions [0, i); it then searches the checkpoint list (freshly fetched when
the cache is empty) for a checkpoint recording exactly i messages; if one is
found it truncates the local display to the first i messages and issues a fork
request carrying that checkpoint id and the edited content; if none is found
it truncates the display and issues a plain (non-fork) chat request with the
edited content; in both cases the request carries the edited message's
original attachments, and the display after the requests (before any stream
event arrives) is the truncated prefix plus the optimistic turn. -/
theorem c1_edit_algorithm (userId : String) (st : ClientState)
    (newContent : String) (i : Nat) (historyFetch : Option (List Checkpoint))
    (uId aId : String) (histResult : Option (List Checkpoint))
    (evs : List ChatEvent) (t : String)
    (ht : st.currentThreadId = some t) (hc : strTrim newContent ≠ "")
    (hl : st.isLoading = false) :
    ((editMessage userId st newContent i historyFetch uId aId histResult
        (StreamOutcome.completed evs)).2
      = [Effect.truncateReq t i]
        ++ (if st.checkpoints.isEmpty then [Effect.historyReq t] else [])
        ++ (match (editEffectiveHistory st historyFetch).find?
              (fun cp => cp.messages.length == i) with
            | some cp =>
              [Effect.forkReq newContent t userId cp.checkpoint_id
                 (editOriginalAttachments st i),
               Effect.historyReq t, Effect.refreshThreadsReq]
            | none =>
              [Effect.chatReq newContent t userId (editOriginalAttachments st i),
               Effect.historyReq t, Effect.refreshThreadsReq]))
    ∧ ((editMessage userId st newContent i historyFetch uId aId histResult
          (StreamOutcome.completed [])).1.messages
        = st.messages.take i
          ++ [optimisticUser uId newContent (editOriginalAttachments st i),
              aiPlaceholder aId]) := by
  obtain ⟨hf1, hf2, hf3, hf4, hf5⟩ := editFetchPair_frame st t historyFetch
  constructor
  · unfold editMessage
    simp only [ht]
    rw [if_neg (by simp [hc, hl])]
    cases hfind : (editFetchPair st t historyFetch).1.checkpoints.find?
        (fun cp => cp.messages.length == i) with
    | some cp =>
      have hfind2 : (editEffectiveHistory st historyFetch).find?
          (fun cp => cp.messages.length == i) = some cp := by
        rw [← hf4]; exact hfind
      simp only [hfind, hfind2]
      rw [fork_effects_completed userId
          { (editFetchPair st t historyFetch).1 with
            messages := List.take i (editFetchPair st t historyFetch).1.messages }
          newContent cp.checkpoint_id (editOriginalAttachments st i) uId aId
          histResult evs t (hf1.trans ht) hc (hf2.trans hl), hf5]
    | none =>
      have hfind2 : (editEffectiveHistory st historyFetch).find?
          (fun cp => cp.messages.length == i) = none := by
        rw [← hf4]; exact hfind
      simp only [hfind, hfind2]
      have hX : (List.foldl (forkEventStep aId)
          (withTurnAppended
            { (editFetchPair st t historyFetch).1 with
              messages := List.take i (editFetchPair st t historyFetch).1.messages }
            uId newContent (editOriginalAttachments st i) aId)
          evs).currentThreadId = some t :=
        (foldl_forkEventStep_frame aId evs _).1.trans (hf1.trans ht)
      rw [loadHistoryOp_effects _ histResult t hX, hf5]
      simp [List.append_assoc]
  · unfold editMessage
    simp only [ht]
    rw [if_neg (by simp [hc, hl])]
    cases hfind : (editFetchPair st t historyFetch).1.checkpoints.find?
        (fun cp => cp.messages.length == i) with
    | some cp =>
      simp only [hfind]
      rw [fork_messages_completed_nil userId
          { (editFetchPair st t historyFetch).1 with
            messages := List.take i (editFetchPair st t historyFetch).1.messages }
          newContent cp.checkpoint_id (editOriginalAttachments st i) uId aId
          histResult t (hf1.trans ht) hc (hf2.trans hl)]
      dsimp only
      rw [hf3]
    | none =>
      simp only [hfind]
      rw [finishOk_messages, (loadHistoryOp_frame _ histResult).2.1]
      simp only [List.foldl_nil]
      show (((editFetchPair st t historyFetch).1.messages.take i
          ++ [optimisticUser uId newContent (editOriginalAttachments st i)])
          ++ [aiPlaceholder aId]) = _
      rw [hf3]
      simp [List.append_assoc]

theorem c1_edit_algorithm_witness :
    (editMessage "u" wPreview "edited" 2 none "user-1" "ai-1" none
        (StreamOutcome.completed [])).2
      = [Effect.truncateReq "t0" 2, Effect.forkReq "edited" "t0" "u" "cp0" [],
         Effect.historyReq "t0", Effect.refreshThreadsReq]
    ∧ (editMessage "u" wPreview "edited" 2 none "user-1" "ai-1" none
        (StreamOutcome.completed [])).1.messages
      = checkpointMessagesView wChk
        ++ [optimisticUser "user-1" "edited" [], aiPlaceholder "ai-1"] := by
  obtain ⟨h1, h2⟩ := c1_edit_algorithm "u" wPreview "edited" 2 none "user-1"
    "ai-1" none [] "t0" (by decide) (by decide) (by decide)
  constructor
  · rw [h1]; decide
  · rw [h2]; decide

theorem mapWithIndex_length (f : Nat → CheckpointMessage → ChatMessage) :
    ∀ (n : Nat) (l : List CheckpointMessage),
      (mapWithIndex f n l).length = l.length := by
  intro n l
  induction l generalizing n with
  | nil => rfl
  | cons m ms ih => simp [mapWithIndex, ih]

theorem mapWithIndex_getElem? (f : Nat → CheckpointMessage → ChatMessage) :
    ∀ (l : List CheckpointMessage) (n i : Nat),
      (mapWithIndex f n l)[i]? = (l[i]?).map (f (n + i)) := by
  intro l
  induction l with
  | nil => intro n i; simp [mapWithIndex]
  | cons m ms ih =>
    intro n i
    cases i with
    | zero => simp [mapWithIndex]
    | succ i =>
      simp only [mapWithIndex, List.getElem?_cons_succ]
      rw [ih (n + 1) i, show n + 1 + i = n + (i + 1) from by omega]

/-- C5: selecting a checkpoint replaces the display with exactly its recorded
messages - same length, pointwise equal contents, and pointwise equal roles
whenever the recorded roles are the two legal wire values - and while a
checkpoint is selected the edit affordance computed by the chat window is
disabled for every displayed message; selecting null reloads the display from
the thread's live Message table. -/
theorem c5_select_checkpoint (st : ClientState) (c : Checkpoint)
    (fetched : List Message) (t : String)
    (ht : st.currentThreadId = some t)
    (hr : ∀ m ∈ c.messages, m.role = "human" ∨ m.role = "ai") :
    ((selectCheckpoint st (some c) fetched).1.messages.length
        = c.messages.length)
    ∧ (∀ i : Nat,
        ((selectCheckpoint st (some c) fetched).1.messages[i]?).map
            (fun m => m.content)
          = (c.messages[i]?).map (fun m => m.content))
    ∧ (∀ i : Nat,
        ((selectCheckpoint st (some c) fetched).1.messages[i]?).map
            (fun m => Role.toWire m.role)
          = (c.messages[i]?).map (fun m => m.role))
    ∧ (∀ m ∈ (selectCheckpoint st (some c) fetched).1.messages,
        canEdit m.role (selectCheckpoint st (some c) fetched).1.isLoading
          (isPreviewingCheckpoint (selectCheckpoint st (some c) fetched).1)
          = false)
    ∧ ((selectCheckpoint st none fetched).1.messages = loadedView fetched) := by
  refine ⟨?_, ?_, ?_, ?_, ?_⟩
  · show (checkpointMessagesView c).length = c.messages.length
    exact mapWithIndex_length _ 0 c.messages
  · intro i
    show ((checkpointMessagesView c)[i]?).map (fun m => m.content) = _
    rw [checkpointMessagesView, mapWithIndex_getElem?]
    cases c.messages[i]? <;> simp [checkpointDisplayMessage]
  · intro i
    show ((checkpointMessagesView c)[i]?).map (fun m => Role.toWire m.role) = _
    rw [checkpointMessagesView, mapWithIndex_getElem?]
    cases hm : c.messages[i]? with
    | none => simp
    | some m =>
      have hmem := List.getElem?_mem hm
      rcases hr m hmem with h | h <;>
        simp [checkpointDisplayMessage, h, Role.toWire]
  · intro m _
    show canEdit m.role st.isLoading
      (isPreviewingCheckpoint (selectCheckpoint st (some c) fetched).1) = false
    have hprev : isPreviewingCheckpoint (selectCheckpoint st (some c) fetched).1
        = true := rfl
    rw [hprev]
    simp [canEdit]
  · simp only [selectCheckpoint, loadMessages, ht]

theorem c5_select_checkpoint_witness :
    (selectCheckpoint wLive (some wChk) wTable).1.messages.length
      = wChk.messages.length :=
  (c5_select_checkpoint wLive wChk wTable "t0" (by decide) (by decide)).1

/-- C6 counterexample: a live display holding an optimistic message with a
locally generated id ("user-100") is not restored by selecting and then
deselecting a checkpoint, because deselection reloads the rows from the
Message table and keys them "db-" ++ row id, so the round trip changes the
message ids even though the table never changed. -/
theorem c6_counterexample :
    (selectCheckpoint (selectCheckpoint wOptimistic (some wChk) wTable).1
        none wTable).1.messages
      ≠ wOptimistic.messages := by
  decide

/-- C6 (amended): selecting a checkpoint and then deselecting it restores the
display exactly - ids, roles, contents and attachments - provided the
pre-selection display was the loaded view of the (unchanged) Message table,
the reload of which is deterministic. -/
theorem c6_roundtrip_amended (st : ClientState) (M : List Message)
    (cp : Checkpoint) (t : String)
    (ht : st.currentThreadId = some t) (hm : st.messages = loadedView M) :
    (selectCheckpoint (selectCheckpoint st (some cp) M).1 none M).1.messages
      = st.messages := by
  simp only [selectCheckpoint, loadMessages, ht]
  exact hm.symm

theorem c6_roundtrip_amended_witness :
    (selectCheckpoint (selectCheckpoint wSynced (some wChk) wTable).1
        none wTable).1.messages
      = wSynced.messages :=
  c6_roundtrip_amended wSynced wTable wChk "t0" rfl rfl

/-- C10: with the delete request succeeding, deleteThread removes the thread
from the local list; when it was the current thread the current id is reset to
null and the display cleared, and otherwise both the current id and the
display are left unchanged. -/
theorem c10_delete_thread (st : ClientState) (threadId : String) :
    ((deleteThread st threadId true).1.threads
        = st.threads.filter (fun th => th.id != threadId))
    ∧ (st.currentThreadId = some threadId →
        (deleteThread st threadId true).1.currentThreadId = none
        ∧ (deleteThread st threadId true).1.messages = [])
    ∧ (st.currentThreadId ≠ some threadId →
        (deleteThread st threadId true).1.currentThreadId = st.currentThreadId
        ∧ (deleteThread st threadId true).1.messages = st.messages) := by
  by_cases h : st.currentThreadId = some threadId
  · refine ⟨?_, fun _ => ⟨?_, ?_⟩, fun hn => absurd h hn⟩ <;>
      simp [deleteThread, h]
  · refine ⟨?_, fun hp => absurd hp h, fun _ => ⟨?_, ?_⟩⟩ <;>
      simp [deleteThread, h]

theorem c10_delete_thread_witness :
    (deleteThread wLive "t0" true).1.currentThreadId = none
    ∧ (deleteThread wLive "t0" true).1.messages = [] :=
  (c10_delete_thread wLive "t0").2.1 (by decide)

theorem editFetchPair_selected (st : ClientState) (t : String)
    (hf : Option (List Checkpoint)) :
    (editFetchPair st t hf).1.selectedCheckpoint = st.selectedCheckpoint := by
  by_cases hemp : st.checkpoints.isEmpty <;> cases hf <;>
    simp [editFetchPair, hemp]

/-- C2 (amended): forkFromCheckpoint clears the checkpoint selection (exits
preview mode) before appending any message, on every stream outcome;
editMessage clears it exactly when it finds a checkpoint recording exactly i
messages and takes the fork path, and leaves it unchanged on the plain-send
fallback path; sendMessage leaves the selection unchanged on every outcome;
and a send invoked while a checkpoint is selected and its recorded messages
are displayed appends the optimistic turn after the preview content with the
selection still set, producing a display that mixes preview and live
content. -/
theorem c2_preview_exit_amended (userId : String) (st : ClientState)
    (content checkpointId : String) (atts : List MessageAttachment)
    (uId aId : String) (hr hfetch hres : Option (List Checkpoint))
    (outcome : StreamOutcome) (t : String) (i : Nat)
    (ht : st.currentThreadId = some t) (hc : strTrim content ≠ "")
    (hl : st.isLoading = false) :
    (forkFromCheckpoint userId st content checkpointId atts uId aId hr
        outcome).1.selectedCheckpoint = none
    ∧ (sendMessage userId st content atts none uId aId
        outcome).1.selectedCheckpoint = st.selectedCheckpoint
    ∧ ((editEffectiveHistory st hfetch).find?
          (fun cp => cp.messages.length == i) ≠ none →
        (editMessage userId st content i hfetch uId aId hres
            outcome).1.selectedCheckpoint = none)
    ∧ ((editEffectiveHistory st hfetch).find?
          (fun cp => cp.messages.length == i) = none →
        (editMessage userId st content i hfetch uId aId hres
            outcome).1.selectedCheckpoint = st.selectedCheckpoint)
    ∧ (∀ cp : Checkpoint, st.selectedCheckpoint = some cp →
        st.messages = checkpointMessagesView cp →
        (sendMessage userId st content atts none uId aId
            (StreamOutcome.completed [])).1.messages
          = checkpointMessagesView cp
            ++ [optimisticUser uId content atts, aiPlaceholder aId]
        ∧ (sendMessage userId st content atts none uId aId
            (StreamOutcome.completed [])).1.selectedCheckpoint = some cp) := by
  obtain ⟨hf1, hf2, hf3, hf4, hf5⟩ := editFetchPair_frame st t hfetch
  refine ⟨fork_selected_none userId st content checkpointId atts uId aId hr
    outcome t ht hc hl, ?_, ?_, ?_, ?_⟩
  · rw [send_core_reduce userId st content atts uId aId outcome t ht hc hl]
    cases outcome with
    | completed evs => exact ((foldl_sendEventStep_frame aId evs _).2.2.1)
    | threw evs => exact ((foldl_sendEventStep_frame aId evs _).2.2.1)
  · intro hne0
    unfold editMessage
    simp only [ht]
    rw [if_neg (by simp [hc, hl])]
    cases hfind : (editFetchPair st t hfetch).1.checkpoints.find?
        (fun cp => cp.messages.length == i) with
    | none =>
      rw [hf4] at hfind
      exact absurd hfind hne0
    | some cp =>
      simp only [hfind]
      exact fork_selected_none userId
        { (editFetchPair st t hfetch).1 with
          messages := List.take i (editFetchPair st t hfetch).1.messages }
        content cp.checkpoint_id (editOriginalAttachments st i) uId aId hres
        outcome t (hf1.trans ht) hc (hf2.trans hl)
  · intro heq0
    unfold editMessage
    simp only [ht]
    rw [if_neg (by simp [hc, hl])]
    cases hfind : (editFetchPair st t hfetch).1.checkpoints.find?
        (fun cp => cp.messages.length == i) with
    | some cp =>
      rw [hf4, heq0] at hfind
      exact absurd hfind (by simp)
    | none =>
      simp only [hfind]
      cases outcome with
      | completed evs =>
        exact (loadHistoryOp_frame _ hres).1.trans
          (((foldl_forkEventStep_frame aId evs _).2.2.1).trans
            (editFetchPair_selected st t hfetch))
      | threw evs =>
        exact ((foldl_forkEventStep_frame aId evs _).2.2.1).trans
          (editFetchPair_selected st t hfetch)
  · intro cp hsel hmsgs
    constructor
    · rw [send_core_reduce userId st content atts uId aId _ t ht hc hl]
      show ((st.messages ++ [optimisticUser uId content atts])
          ++ [aiPlaceholder aId]) = _
      rw [hmsgs]
      simp [List.append_assoc]
    · rw [send_core_reduce userId st content atts uId aId _ t ht hc hl]
      exact ((foldl_sendEventStep_frame aId [] _).2.2.1).trans hsel

theorem c2_preview_exit_amended_witness :
    (sendMessage "u" wPreview "hi" [] none "user-1" "ai-1"
        (StreamOutcome.completed [])).1.messages
      = checkpointMessagesView wChk
        ++ [optimisticUser "user-1" "hi" [], aiPlaceholder "ai-1"]
    ∧ (sendMessage "u" wPreview "hi" [] none "user-1" "ai-1"
        (StreamOutcome.completed [])).1.selectedCheckpoint = some wChk :=
  (c2_preview_exit_amended "u" wPreview "hi" "cp0" [] "user-1" "ai-1"
    none none none (StreamOutcome.completed []) "t0" 0
    (by decide) (by decide) (by decide)).2.2.2.2 wChk (by decide) (by decide)
